import Mathlib

/-!
# Verification of the YODHA-HACKATHON document pipeline

Shallow embedding of the MedScan document-extraction pipeline and its
frontend/server helpers, with theorems settling the frozen claims about
the natural-language specification.

The Python backend (`llm_extractor.py`, the Redis worker) is not part of
the shipped sources; only its documentation is.  The components that live
there (`determine_status`, `calculate_confidence`, the fallback scoring
regime, the job lifecycle) are therefore modelled from the specification,
as flagged in the corresponding doc comments.  Everything else is a direct
translation of the JavaScript sources.
-/

/-- Disposition assigned by the triage engine. -/
inductive Status where
  | AUTO_APPROVED
  | PENDING_REVIEW
  | REJECTED
deriving DecidableEq, Repr

/-- Modelled from the spec: `LLMExtractor.determine_status` is not in the
shipped sources (only documented in `README.md` and the confidence-fix note).
The spec fixes the thresholds: score ≥ 0.90 ⇒ AUTO_APPROVED;
0.70 ≤ score < 0.90 ⇒ PENDING_REVIEW; score < 0.70 ⇒ REJECTED. -/
def determine_status (s : ℚ) : Status :=
  if 0.90 ≤ s then Status.AUTO_APPROVED
  else if 0.70 ≤ s then Status.PENDING_REVIEW
  else Status.REJECTED

/-- Modelled from the spec: the flat (model-derived, open-schema) branch of
`LLMExtractor.calculate_confidence` is not in the shipped sources.  The spec
and the confidence-fix note give the step function of the field count:
≥ 15 fields → 0.95+ (the note reports 1.00 at 22 fields); 10–14 → 0.85;
6–9 → 0.75; 3–5 → 0.60; < 3 → 0.40. -/
def calculate_confidence_flat (n : ℕ) : ℚ :=
  if 15 ≤ n then min 1 (0.95 + (n - 15 : ℕ) * 0.01)
  else if 10 ≤ n then 0.85
  else if 6 ≤ n then 0.75
  else if 3 ≤ n then 0.60
  else 0.40

/-- Modelled from the spec: the fallback (regex, fixed-schema) branch of
`LLMExtractor.calculate_confidence` is not in the shipped sources.  The spec
says the score is the fraction of the two required fields that are present
plus a smaller bonus per present optional field (two optional fields),
clamped to [0,1]; the constants are pinned by the repository's confidence-fix
note, which reports a score of exactly 0.90 for a three-field fallback record
(2 required + 1 optional): weight 0.8 on the required fraction, bonus 0.1
per optional field. -/
def fallback_confidence (reqPresent optPresent : ℕ) : ℚ :=
  min 1 (max 0 (0.8 * ((reqPresent : ℚ) / 2) + 0.1 * (optPresent : ℚ)))

/-- Job lifecycle states. -/
inductive JobState where
  | QUEUED
  | RUNNING
  | FINISHED
  | FAILED
deriving DecidableEq, Repr

/-- Modelled from the spec: the job lifecycle manager (Redis queue + worker)
is not in the shipped sources (only documented in `README.md`).  The spec's
transition relation: QUEUED → RUNNING (worker claims), RUNNING → FINISHED
(success), RUNNING → FAILED (failure); nothing else. -/
def jobStep (s t : JobState) : Bool :=
  match s, t with
  | JobState.QUEUED, JobState.RUNNING => true
  | JobState.RUNNING, JobState.FINISHED => true
  | JobState.RUNNING, JobState.FAILED => true
  | _, _ => false

/-- Modelled from the spec: `enqueue` persists a fresh job in state QUEUED. -/
def enqueueJobState : JobState := JobState.QUEUED

/-- An observation history of one job: the sequence of states it passes
through, starting at enqueue, consecutive states related by `jobStep`. -/
def JobTrace (p : List JobState) : Prop :=
  p.head? = some JobState.QUEUED ∧ List.Chain' (fun a b => jobStep a b = true) p

/-- A state is terminal when no transition leaves it. -/
def terminalJobState (s : JobState) : Prop := ∀ t, jobStep s t = false

theorem jobStep_finished_false (t : JobState) : jobStep JobState.FINISHED t = false := by
  cases t <;> rfl

theorem jobStep_failed_false (t : JobState) : jobStep JobState.FAILED t = false := by
  cases t <;> rfl

/-- In a `jobStep`-chain, a state with no outgoing transition can only occur
as the last element. -/
theorem chain_terminal_last (p : List JobState) (s : JobState)
    (hc : List.Chain' (fun a b => jobStep a b = true) p)
    (hterm : ∀ t, jobStep s t = false) (hmem : s ∈ p) :
    p.getLast? = some s := by
  induction p with
  | nil => cases hmem
  | cons a rest ih =>
    cases rest with
    | nil =>
      simp only [List.mem_singleton] at hmem
      simp [hmem]
    | cons b rest' =>
      rcases List.chain'_cons.mp hc with ⟨hab, hc'⟩
      rcases List.mem_cons.mp hmem with h1 | h2
      · subst h1
        rw [hterm b] at hab
        cases hab
      · have := ih hc' h2
        rw [List.getLast?_cons_cons]
        exact this

/-- Claim C1: for every confidence score in [0,1] the disposition is fixed by
the thresholds — s ≥ 0.90 ⇒ AUTO_APPROVED, 0.70 ≤ s < 0.90 ⇒ PENDING_REVIEW,
s < 0.70 ⇒ REJECTED — with the exact boundary behaviour
determine_status 0.90 = AUTO_APPROVED, determine_status 0.8999 =
PENDING_REVIEW, determine_status 0.6999 = REJECTED. -/
theorem determine_status_thresholds (s : ℚ) (_h0 : 0 ≤ s) (_h1 : s ≤ 1) :
    (0.90 ≤ s → determine_status s = Status.AUTO_APPROVED) ∧
    (0.70 ≤ s ∧ s < 0.90 → determine_status s = Status.PENDING_REVIEW) ∧
    (s < 0.70 → determine_status s = Status.REJECTED) ∧
    determine_status 0.90 = Status.AUTO_APPROVED ∧
    determine_status 0.8999 = Status.PENDING_REVIEW ∧
    determine_status 0.6999 = Status.REJECTED := by
  unfold determine_status
  refine ⟨?_, ?_, ?_, by norm_num, by norm_num, by norm_num⟩
  · intro h
    rw [if_pos h]
  · rintro ⟨hlo, hhi⟩
    rw [if_neg (by linarith), if_pos hlo]
  · intro h
    rw [if_neg (by linarith), if_neg (by linarith)]

/-- Witness for the claim C1 theorem at concrete scores. -/
theorem determine_status_thresholds_witness :
    determine_status 0.95 = Status.AUTO_APPROVED ∧
    determine_status 0.75 = Status.PENDING_REVIEW ∧
    determine_status 0.5 = Status.REJECTED :=
  ⟨(determine_status_thresholds 0.95 (by norm_num) (by norm_num)).1 (by norm_num),
   (determine_status_thresholds 0.75 (by norm_num) (by norm_num)).2.1
     ⟨by norm_num, by norm_num⟩,
   (determine_status_thresholds 0.5 (by norm_num) (by norm_num)).2.2.1 (by norm_num)⟩

/-- Claim C2: for model-derived (flat, open-schema) extraction records the
confidence score is a step function of the field count: ≥ 15 fields gives a
score of at least 0.95, 10–14 gives 0.85, 6–9 gives 0.75, 3–5 gives 0.60, and
fewer than 3 gives 0.40. -/
theorem calculate_confidence_flat_bands (n : ℕ) :
    (15 ≤ n → 0.95 ≤ calculate_confidence_flat n) ∧
    (10 ≤ n → n ≤ 14 → calculate_confidence_flat n = 0.85) ∧
    (6 ≤ n → n ≤ 9 → calculate_confidence_flat n = 0.75) ∧
    (3 ≤ n → n ≤ 5 → calculate_confidence_flat n = 0.60) ∧
    (n < 3 → calculate_confidence_flat n = 0.40) := by
  unfold calculate_confidence_flat
  refine ⟨?_, ?_, ?_, ?_, ?_⟩
  · intro h
    rw [if_pos h]
    refine le_min (by norm_num) ?_
    have : (0 : ℚ) ≤ ((n - 15 : ℕ) : ℚ) * 0.01 := by positivity
    linarith
  · intro h1 h2
    rw [if_neg (by omega), if_pos h1]
  · intro h1 h2
    rw [if_neg (by omega), if_neg (by omega), if_pos h1]
  · intro h1 h2
    rw [if_neg (by omega), if_neg (by omega), if_neg (by omega), if_pos h1]
  · intro h
    rw [if_neg (by omega), if_neg (by omega), if_neg (by omega), if_neg (by omega)]

/-- Witness for the claim C2 theorem at concrete field counts. -/
theorem calculate_confidence_flat_bands_witness :
    0.95 ≤ calculate_confidence_flat 22 ∧
    calculate_confidence_flat 12 = 0.85 ∧
    calculate_confidence_flat 7 = 0.75 ∧
    calculate_confidence_flat 4 = 0.60 ∧
    calculate_confidence_flat 2 = 0.40 :=
  ⟨(calculate_confidence_flat_bands 22).1 (by norm_num),
   (calculate_confidence_flat_bands 12).2.1 (by norm_num) (by norm_num),
   (calculate_confidence_flat_bands 7).2.2.1 (by norm_num) (by norm_num),
   (calculate_confidence_flat_bands 4).2.2.2.1 (by norm_num) (by norm_num),
   (calculate_confidence_flat_bands 2).2.2.2.2 (by norm_num)⟩

/-- Claim C5 counterexample: with both required fields and one optional field
present, the fallback score is exactly 0.90, the disposition is AUTO_APPROVED,
and the score is not in the PENDING_REVIEW band [0.70, 0.90). -/
theorem fallback_pending_band_cex :
    fallback_confidence 2 1 = 0.90 ∧
    determine_status (fallback_confidence 2 1) = Status.AUTO_APPROVED ∧
    ¬ (0.70 ≤ fallback_confidence 2 1 ∧ fallback_confidence 2 1 < 0.90) := by
  have h : fallback_confidence 2 1 = 0.90 := by
    norm_num [fallback_confidence]
  refine ⟨h, ?_, ?_⟩
  · rw [h]
    norm_num [determine_status]
  · rw [h]
    norm_num

/-- Claim C5 (amended): with the extraction capability disabled and exactly the
two required fallback fields plus one of the two optional fields present, the
fallback scoring regime yields a score of exactly 0.90, so the disposition is
AUTO_APPROVED (the band boundary is reached, not PENDING_REVIEW). -/
theorem fallback_two_required_one_optional :
    fallback_confidence 2 1 = 0.90 ∧
    determine_status (fallback_confidence 2 1) = Status.AUTO_APPROVED := by
  have h : fallback_confidence 2 1 = 0.90 := by
    norm_num [fallback_confidence]
  refine ⟨h, ?_⟩
  rw [h]
  norm_num [determine_status]

/-- Claim C4: a job starts in QUEUED on enqueue, every transition runs along
QUEUED → RUNNING → FINISHED or QUEUED → RUNNING → FAILED, FINISHED and FAILED
are terminal, and no observation history of a job contains both terminal
states. -/
theorem job_lifecycle_invariant :
    enqueueJobState = JobState.QUEUED ∧
    terminalJobState JobState.FINISHED ∧
    terminalJobState JobState.FAILED ∧
    (∀ s t, jobStep s t = true →
      (s = JobState.QUEUED ∧ t = JobState.RUNNING) ∨
      (s = JobState.RUNNING ∧ (t = JobState.FINISHED ∨ t = JobState.FAILED))) ∧
    (∀ p, JobTrace p → ¬ (JobState.FINISHED ∈ p ∧ JobState.FAILED ∈ p)) := by
  refine ⟨rfl, jobStep_finished_false, jobStep_failed_false, ?_, ?_⟩
  · intro s t h
    cases s <;> cases t <;> simp_all [jobStep]
  · rintro p hp ⟨hfin, hfail⟩
    have h1 := chain_terminal_last p JobState.FINISHED hp.2 jobStep_finished_false hfin
    have h2 := chain_terminal_last p JobState.FAILED hp.2 jobStep_failed_false hfail
    rw [h1] at h2
    cases h2

/-- Witness for the claim C4 theorem on a concrete trace. -/
theorem job_lifecycle_invariant_witness :
    ¬ (JobState.FINISHED ∈ [JobState.QUEUED, JobState.RUNNING, JobState.FINISHED] ∧
       JobState.FAILED ∈ [JobState.QUEUED, JobState.RUNNING, JobState.FINISHED]) :=
  job_lifecycle_invariant.2.2.2.2
    [JobState.QUEUED, JobState.RUNNING, JobState.FINISHED]
    ⟨rfl, by simp [List.chain'_cons, jobStep]⟩

/-- JS `startsWith` on character lists: does `t` begin with `s`? -/
def leadsWith : List Char → List Char → Bool
  | [], _ => true
  | _ :: _, [] => false
  | s :: ss, c :: cs => s == c && leadsWith ss cs

/-- JS `String.prototype.includes` on character lists: does `t` contain the
contiguous subsequence `sep`? -/
def containsSeq (sep : List Char) : List Char → Bool
  | [] => leadsWith sep []
  | c :: rest => leadsWith sep (c :: rest) || containsSeq sep rest

/-- JS `String.prototype.split` with a non-empty separator, on character
lists: cut at each left-to-right non-overlapping occurrence of `sep`. -/
def splitOnList (sep : List Char) : List Char → List (List Char)
  | [] => [[]]
  | c :: rest =>
    if sep ≠ [] ∧ leadsWith sep (c :: rest) = true then
      [] :: splitOnList sep (rest.drop (sep.length - 1))
    else
      List.modifyHead (fun piece => c :: piece) (splitOnList sep rest)
termination_by l => l.length
decreasing_by
  · simp only [List.length_drop, List.length_cons]
    omega
  · simp only [List.length_cons]
    omega

/-- JS `String.prototype.trim` on character lists. -/
def trimL (l : List Char) : List Char :=
  ((l.dropWhile Char.isWhitespace).reverse.dropWhile Char.isWhitespace).reverse

/-- The opening code-fence marker of the Gemini response handler. -/
def fenceJson : List Char := "```json".data

/-- The closing code-fence marker of the Gemini response handler. -/
def fenceBt : List Char := "```".data

/-- The backtick character (obtained from the fence marker). -/
def btChar : Char := List.getD fenceBt 0 ' '

/-- `generatePatientSummary`, JSON-extraction step: the raw model text is
de-fenced when it contains a ```json fence, else taken as-is
(`aiSummaryService`, lines 54–56). -/
def stripFenceL (text : List Char) : List Char :=
  if containsSeq fenceJson text then
    trimL ((splitOnList fenceBt ((splitOnList fenceJson text).getD 1 [])).getD 0 [])
  else text

theorem leadsWith_append_self (s t : List Char) : leadsWith s (s ++ t) = true := by
  induction s with
  | nil => rfl
  | cons c cs ih => simp [leadsWith, ih]

theorem leadsWith_head_notmem (ch : Char) (s t : List Char) (h : ch ∉ t) :
    leadsWith (ch :: s) t = false := by
  cases t with
  | nil => rfl
  | cons c cs =>
    have : ch ≠ c := fun he => h (he ▸ List.mem_cons_self c cs)
    simp [leadsWith, this]

theorem leadsWith_eq_append (s t : List Char) (h : leadsWith s t = true) :
    ∃ t', t = s ++ t' := by
  induction s generalizing t with
  | nil => exact ⟨t, rfl⟩
  | cons c cs ih =>
    cases t with
    | nil => cases h
    | cons x xs =>
      simp only [leadsWith, Bool.and_eq_true, beq_iff_eq] at h
      obtain ⟨rfl, h2⟩ := h
      obtain ⟨t', rfl⟩ := ih xs h2
      exact ⟨t', rfl⟩

theorem containsSeq_self (c : Char) (s t : List Char) :
    containsSeq (c :: s) ((c :: s) ++ t) = true := by
  have h : leadsWith (c :: s) (c :: (s ++ t)) = true := leadsWith_append_self (c :: s) t
  show containsSeq (c :: s) (c :: (s ++ t)) = true
  rw [containsSeq, h]
  rfl

theorem containsSeq_append_notmem (ch : Char) (s a b : List Char) (h : ch ∉ a) :
    containsSeq (ch :: s) (a ++ b) = containsSeq (ch :: s) b := by
  induction a with
  | nil => rfl
  | cons x xs ih =>
    have hx : ch ∉ xs := fun hm => h (List.mem_cons_of_mem x hm)
    have hne : ch ≠ x := fun he => h (he ▸ List.mem_cons_self x xs)
    show containsSeq (ch :: s) (x :: (xs ++ b)) = containsSeq (ch :: s) b
    rw [containsSeq]
    have hlw : leadsWith (ch :: s) (x :: (xs ++ b)) = false := by
      simp [leadsWith, hne]
    rw [hlw, Bool.false_or]
    exact ih hx

theorem containsSeq_notmem (ch : Char) (s t : List Char) (h : ch ∉ t) :
    containsSeq (ch :: s) t = false := by
  induction t with
  | nil => rfl
  | cons x xs ih =>
    have hx : ch ∉ xs := fun hm => h (List.mem_cons_of_mem x hm)
    have hlw : leadsWith (ch :: s) (x :: xs) = false := leadsWith_head_notmem ch s _ h
    simp [containsSeq, hlw, ih hx]

theorem splitOnList_ne_nil (sep l : List Char) : splitOnList sep l ≠ [] := by
  induction l using splitOnList.induct sep with
  | case1 => simp [splitOnList]
  | case2 c rest h ih =>
    rw [splitOnList, if_pos h]
    simp
  | case3 c rest h ih =>
    rw [splitOnList, if_neg h]
    rcases hsp : splitOnList sep rest with _ | ⟨p, ps⟩
    · exact absurd hsp ih
    · simp [List.modifyHead]

theorem splitOnList_at_sep (ch : Char) (s a b : List Char) (h : ch ∉ a) :
    splitOnList (ch :: s) (a ++ ((ch :: s) ++ b)) = a :: splitOnList (ch :: s) b := by
  induction a with
  | nil =>
    show splitOnList (ch :: s) (ch :: (s ++ b)) = [] :: splitOnList (ch :: s) b
    have hlw : leadsWith (ch :: s) (ch :: (s ++ b)) = true := leadsWith_append_self (ch :: s) b
    rw [splitOnList, if_pos ⟨List.cons_ne_nil ch s, hlw⟩]
    congr 1
    congr 1
    simp
  | cons x xs ih =>
    have hx : ch ∉ xs := fun hm => h (List.mem_cons_of_mem x hm)
    have hne : ch ≠ x := fun he => h (he ▸ List.mem_cons_self x xs)
    show splitOnList (ch :: s) (x :: (xs ++ ((ch :: s) ++ b)))
        = (x :: xs) :: splitOnList (ch :: s) b
    rw [splitOnList, if_neg (by simp [leadsWith, hne])]
    rw [ih hx]
    rfl

theorem splitOnList_no_occ (sep l : List Char) (h : containsSeq sep l = false) :
    splitOnList sep l = [l] := by
  induction l with
  | nil => simp [splitOnList]
  | cons c rest ih =>
    rw [containsSeq, Bool.or_eq_false_iff] at h
    rw [splitOnList, if_neg (by simp [h.1])]
    rw [ih h.2]
    rfl

/-- Claim C7: a raw model response wrapped in a ```json ... ``` fence (prefix
and payload free of stray backticks) is stripped to exactly the enclosed
payload (trimmed, as the source trims it), and a response containing no
```json marker is passed through unchanged. -/
theorem stripFence_correct (pre mid post : List Char)
    (hpre : btChar ∉ pre) (hmid : btChar ∉ mid) (hpost : btChar ∉ post) :
    stripFenceL (pre ++ fenceJson ++ mid ++ fenceBt ++ post) = trimL mid ∧
    (∀ t : List Char, containsSeq fenceJson t = false → stripFenceL t = t) := by
  constructor
  · have hfj : fenceJson = btChar :: "``json".data := by decide
    have hfb : fenceBt = btChar :: "``".data := by decide
    have hw : pre ++ fenceJson ++ mid ++ fenceBt ++ post
        = pre ++ (fenceJson ++ (mid ++ (fenceBt ++ post))) := by
      simp [List.append_assoc]
    rw [hw]
    set B := mid ++ (fenceBt ++ post) with hB
    have hcont : containsSeq fenceJson (pre ++ (fenceJson ++ B)) = true := by
      rw [hfj, containsSeq_append_notmem btChar _ pre _ hpre]
      exact containsSeq_self btChar _ B
    have houter : splitOnList fenceJson (pre ++ (fenceJson ++ B))
        = pre :: splitOnList fenceJson B := by
      rw [hfj]
      exact splitOnList_at_sep btChar _ pre B hpre
    simp only [stripFenceL]
    rw [if_pos hcont, houter, List.getD_cons_succ]
    by_cases hjs : leadsWith ("json".data) post = true
    · obtain ⟨post', hpe⟩ := leadsWith_eq_append _ _ hjs
      have hBA : B = mid ++ (fenceJson ++ post') := by
        rw [hB, hpe, ← List.append_assoc fenceBt ("json".data) post']
        have hcat : fenceBt ++ "json".data = fenceJson := by decide
        rw [hcat]
      have hmidrow : splitOnList fenceJson B = mid :: splitOnList fenceJson post' := by
        rw [hBA, hfj]
        exact splitOnList_at_sep btChar _ mid post' hmid
      rw [hmidrow, List.getD_cons_zero]
      have hmidsplit : splitOnList fenceBt mid = [mid] := by
        apply splitOnList_no_occ
        rw [hfb]
        exact containsSeq_notmem btChar _ mid hmid
      rw [hmidsplit, List.getD_cons_zero]
    · have hjs' : leadsWith ("json".data) post = false := by
        cases hcase : leadsWith ("json".data) post
        · rfl
        · exact absurd hcase hjs
      have hlw0 : leadsWith fenceJson (btChar :: btChar :: btChar :: post) = false := by
        show leadsWith (btChar :: btChar :: btChar :: "json".data)
            (btChar :: btChar :: btChar :: post) = false
        simp only [leadsWith, beq_self_eq_true, Bool.true_and]
        exact hjs'
      have hlw2 : leadsWith fenceJson (btChar :: btChar :: post) = false := by
        show leadsWith (btChar :: btChar :: btChar :: "json".data)
            (btChar :: btChar :: post) = false
        simp only [leadsWith, beq_self_eq_true, Bool.true_and]
        exact leadsWith_head_notmem btChar _ post hpost
      have hlw3 : leadsWith fenceJson (btChar :: post) = false := by
        show leadsWith (btChar :: btChar :: btChar :: "json".data)
            (btChar :: post) = false
        simp only [leadsWith, beq_self_eq_true, Bool.true_and]
        exact leadsWith_head_notmem btChar _ post hpost
      have hcs4 : containsSeq fenceJson post = false := by
        rw [hfj]
        exact containsSeq_notmem btChar _ post hpost
      have hnc : containsSeq fenceJson B = false := by
        rw [hB, hfj, containsSeq_append_notmem btChar _ mid _ hmid, ← hfj]
        show containsSeq fenceJson (btChar :: btChar :: btChar :: post) = false
        rw [containsSeq, containsSeq, containsSeq, hlw0, hlw2, hlw3, hcs4]
        rfl
      have hsplitB : splitOnList fenceJson B = [B] := splitOnList_no_occ _ _ hnc
      rw [hsplitB, List.getD_cons_zero]
      have hinner : splitOnList fenceBt B = mid :: splitOnList fenceBt post := by
        rw [hB, hfb]
        exact splitOnList_at_sep btChar _ mid post hmid
      rw [hinner, List.getD_cons_zero]
  · intro t ht
    simp [stripFenceL, ht]

/-- Witness for the claim C7 theorem on a concrete fenced response. -/
theorem stripFence_correct_witness :
    stripFenceL ("Sure: ".data ++ fenceJson ++ " [1, 2] ".data ++ fenceBt ++ " done".data)
      = trimL " [1, 2] ".data ∧
    stripFenceL "no fence here".data = "no fence here".data :=
  ⟨(stripFence_correct "Sure: ".data " [1, 2] ".data " done".data
      (by decide) (by decide) (by decide)).1,
   (stripFence_correct [] [] [] (by decide) (by decide) (by decide)).2
      "no fence here".data (by decide)⟩

/-- A JavaScript primitive value, as far as the embedded code inspects it. -/
inductive JSPrim where
  | null
  | undef
  | boolean (b : Bool)
  | num (q : ℚ)
  | str (s : String)
deriving DecidableEq, Repr

/-- A JavaScript value: a primitive or a flat object of primitives. -/
inductive JSVal where
  | prim (p : JSPrim)
  | obj (kvs : List (String × JSPrim))
deriving DecidableEq, Repr

/-- JS truthiness of a primitive (`NaN` is not modelled; `0`/`""`/`null`/
`undefined`/`false` are falsy). -/
def truthyP (v : JSPrim) : Bool :=
  match v with
  | JSPrim.null => false
  | JSPrim.undef => false
  | JSPrim.boolean b => b
  | JSPrim.num q => q ≠ 0
  | JSPrim.str s => s ≠ ""

/-- JS truthiness of a value (every object is truthy). -/
def truthy (v : JSVal) : Bool :=
  match v with
  | JSVal.prim p => truthyP p
  | JSVal.obj _ => true

/-- `encrypt` (encryption.js, lines 148–165): falsy or non-string input is
returned unchanged; otherwise the cipher runs, and if it throws the original
input is returned.  The AES cipher itself is external, abstracted as
`cipherOp` (`some out` = the `iv:ciphertext` result, `none` = it threw). -/
def encrypt (cipherOp : String → Option String) (v : JSPrim) : JSPrim :=
  match v with
  | JSPrim.str s =>
    if s = "" then v
    else
      match cipherOp s with
      | some out => JSPrim.str out
      | none => v
  | _ => v

/-- JS `String.prototype.split` with a single-character separator, on
character lists (structural; used by `decrypt` for the `:` separator). -/
def splitChar (sep : Char) : List Char → List (List Char)
  | [] => [[]]
  | c :: rest =>
    if c = sep then [] :: splitChar sep rest
    else List.modifyHead (fun piece => c :: piece) (splitChar sep rest)

/-- `decrypt` (encryption.js, lines 172–195): falsy or non-string input, input
without a `:` separator, or input splitting into a number of parts other than
two is returned unchanged; otherwise the decipher runs on the two parts, and
if it throws the original input is returned.  The AES decipher is external,
abstracted as `decipherOp iv data`. -/
def decrypt (decipherOp : List Char → List Char → Option String) (v : JSPrim) : JSPrim :=
  match v with
  | JSPrim.str s =>
    if s.data = [] then v
    else if s.data.contains ':' = false then v
    else
      match splitChar ':' s.data with
      | [ivPart, dataPart] =>
        (match decipherOp ivPart dataPart with
         | some out => JSPrim.str out
         | none => v)
      | _ => v
  | _ => v

/-- Claim C8: `encrypt` and `decrypt` are total (they are functions into
`JSPrim`, so termination without raising is by construction) and return their
input unchanged on malformed input: null/undefined/non-string values, strings
without the `iv:ciphertext` separator or with the wrong number of parts, and
inputs on which the underlying cipher operation throws. -/
theorem encrypt_decrypt_total (cipherOp : String → Option String)
    (decipherOp : List Char → List Char → Option String) (v : JSPrim) :
    ((∀ s, v ≠ JSPrim.str s) → encrypt cipherOp v = v ∧ decrypt decipherOp v = v) ∧
    (∀ s, v = JSPrim.str s → cipherOp s = none → encrypt cipherOp v = v) ∧
    (∀ s, v = JSPrim.str s → s.data.contains ':' = false → decrypt decipherOp v = v) ∧
    (∀ s, v = JSPrim.str s → (splitChar ':' s.data).length ≠ 2 →
      decrypt decipherOp v = v) ∧
    (∀ s a b, v = JSPrim.str s → splitChar ':' s.data = [a, b] → decipherOp a b = none →
      decrypt decipherOp v = v) := by
  refine ⟨?_, ?_, ?_, ?_, ?_⟩
  · intro h
    cases v with
    | str s => exact absurd rfl (h s)
    | null => exact ⟨rfl, rfl⟩
    | undef => exact ⟨rfl, rfl⟩
    | boolean b => exact ⟨rfl, rfl⟩
    | num q => exact ⟨rfl, rfl⟩
  · rintro s rfl hop
    by_cases he : s = ""
    · simp [encrypt, he]
    · have hne : ¬ s = "" := he
      simp [encrypt, hne, hop]
  · rintro s rfl hsep
    by_cases he : s.data = []
    · simp [decrypt, he]
    · simp only [decrypt]
      rw [if_neg he, if_pos hsep]
  · rintro s rfl hlen
    by_cases he : s.data = []
    · simp [decrypt, he]
    · by_cases hc : s.data.contains ':' = false
      · simp only [decrypt]
        rw [if_neg he, if_pos hc]
      · simp only [decrypt]
        rw [if_neg he, if_neg hc]
        rcases hsp : splitChar ':' s.data with _ | ⟨a, _ | ⟨b, _ | ⟨c, rest⟩⟩⟩
        · rfl
        · rfl
        · exact absurd (by rw [hsp]; rfl) hlen
        · rfl
  · rintro s a b rfl hsp hop
    by_cases he : s.data = []
    · simp [decrypt, he]
    · by_cases hc : s.data.contains ':' = false
      · simp only [decrypt]
        rw [if_neg he, if_pos hc]
      · simp only [decrypt]
        rw [if_neg he, if_neg hc, hsp]
        show (match decipherOp a b with
              | some out => JSPrim.str out
              | none => JSPrim.str s) = JSPrim.str s
        rw [hop]

/-- Witness for the claim C8 theorem at concrete malformed inputs. -/
theorem encrypt_decrypt_total_witness :
    encrypt (fun _ => none) JSPrim.null = JSPrim.null ∧
    decrypt (fun _ _ => none) (JSPrim.str "noseparator") = JSPrim.str "noseparator" ∧
    decrypt (fun _ _ => none) (JSPrim.str "a:b:c") = JSPrim.str "a:b:c" ∧
    decrypt (fun _ _ => none) (JSPrim.str "aa:bb") = JSPrim.str "aa:bb" :=
  ⟨((encrypt_decrypt_total (fun _ => none) (fun _ _ => none) JSPrim.null).1
      (by intro s h; cases h)).1,
   (encrypt_decrypt_total (fun _ => none) (fun _ _ => none) _).2.2.1
      "noseparator" rfl (by decide),
   (encrypt_decrypt_total (fun _ => none) (fun _ _ => none) _).2.2.2.1
      "a:b:c" rfl (by decide),
   (encrypt_decrypt_total (fun _ => none) (fun _ _ => none) _).2.2.2.2
      "aa:bb" "aa".data "bb".data rfl (by decide) rfl⟩

/-- Default sample file URL filled in by `adaptRecord`. -/
def defaultFileUrl : String := "https://rxresu.me/assets/samples/sample-medical-report.jpg"

/-- Default doctor name filled in by `adaptRecord`. -/
def defaultDoctorName : String := "Dr. Unassigned"

/-- A record as handled by `recordAdapter.js`: the four fields the adapter
touches, plus the untouched remainder of the object (spread-copied). -/
structure JSRecord where
  extracted_data : JSVal
  file_url : JSVal
  visit_date : JSVal
  doctor_name : JSVal
  rest : List (String × JSPrim)
deriving DecidableEq, Repr

/-- `adaptRecord` (recordAdapter.js, lines 27–52): shallow-copies the record
and replaces each of `extracted_data`, `file_url`, `visit_date`,
`doctor_name` by a default whenever the current value is falsy (`!x`).  The
random visit date produced by `generateRandomDate()` is a parameter. -/
def adaptRecord (randDate : String) (r : JSRecord) : JSRecord :=
  { r with
    extracted_data :=
      if truthy r.extracted_data then r.extracted_data else JSVal.obj [],
    file_url :=
      if truthy r.file_url then r.file_url
      else JSVal.prim (JSPrim.str defaultFileUrl),
    visit_date :=
      if truthy r.visit_date then r.visit_date
      else JSVal.prim (JSPrim.str randDate),
    doctor_name :=
      if truthy r.doctor_name then r.doctor_name
      else JSVal.prim (JSPrim.str defaultDoctorName) }

theorem ite_truthy_ne_undef (x d : JSVal) (hd : d ≠ JSVal.prim JSPrim.undef) :
    (if truthy x then x else d) ≠ JSVal.prim JSPrim.undef := by
  by_cases h : truthy x = true
  · rw [if_pos h]
    intro he
    rw [he] at h
    cases h
  · rw [if_neg h]
    exact hd

/-- Claim C9 counterexample: a record whose `file_url` is present (a string,
not `undefined`) but falsy (the empty string) does not keep its value —
`adaptRecord` overwrites it with the default URL. -/
theorem adaptRecord_present_field_cex :
    (adaptRecord "2024-01-01"
        ⟨JSVal.obj [], JSVal.prim (JSPrim.str ""),
         JSVal.prim (JSPrim.str "2023-05-05"), JSVal.prim (JSPrim.str "Dr. A"),
         []⟩).file_url
      ≠ JSVal.prim (JSPrim.str "") := by decide

/-- Claim C9 (amended): `adaptRecord` leaves `extracted_data`, `file_url`,
`visit_date` and `doctor_name` all defined, keeps every truthy field value
unchanged (defaults are filled in exactly for falsy fields, which includes
absent ones), and passes every other property of the input through unchanged
(the input itself is never mutated: the adapter operates on a shallow copy,
which the embedding renders as a pure function). -/
theorem adaptRecord_fills_defaults (randDate : String) (r : JSRecord) :
    (adaptRecord randDate r).extracted_data ≠ JSVal.prim JSPrim.undef ∧
    (adaptRecord randDate r).file_url ≠ JSVal.prim JSPrim.undef ∧
    (adaptRecord randDate r).visit_date ≠ JSVal.prim JSPrim.undef ∧
    (adaptRecord randDate r).doctor_name ≠ JSVal.prim JSPrim.undef ∧
    (truthy r.extracted_data = true →
      (adaptRecord randDate r).extracted_data = r.extracted_data) ∧
    (truthy r.file_url = true → (adaptRecord randDate r).file_url = r.file_url) ∧
    (truthy r.visit_date = true → (adaptRecord randDate r).visit_date = r.visit_date) ∧
    (truthy r.doctor_name = true →
      (adaptRecord randDate r).doctor_name = r.doctor_name) ∧
    (truthy r.extracted_data = false →
      (adaptRecord randDate r).extracted_data = JSVal.obj []) ∧
    (truthy r.file_url = false →
      (adaptRecord randDate r).file_url = JSVal.prim (JSPrim.str defaultFileUrl)) ∧
    (truthy r.visit_date = false →
      (adaptRecord randDate r).visit_date = JSVal.prim (JSPrim.str randDate)) ∧
    (truthy r.doctor_name = false →
      (adaptRecord randDate r).doctor_name = JSVal.prim (JSPrim.str defaultDoctorName)) ∧
    (adaptRecord randDate r).rest = r.rest := by
  refine ⟨?_, ?_, ?_, ?_, ?_, ?_, ?_, ?_, ?_, ?_, ?_, ?_, rfl⟩
  · exact ite_truthy_ne_undef _ _ (by decide)
  · exact ite_truthy_ne_undef _ _ (by simp [defaultFileUrl])
  · exact ite_truthy_ne_undef _ _ (by simp)
  · exact ite_truthy_ne_undef _ _ (by simp [defaultDoctorName])
  · intro h
    simp [adaptRecord, h]
  · intro h
    simp [adaptRecord, h]
  · intro h
    simp [adaptRecord, h]
  · intro h
    simp [adaptRecord, h]
  · intro h
    simp [adaptRecord, h]
  · intro h
    simp [adaptRecord, h]
  · intro h
    simp [adaptRecord, h]
  · intro h
    simp [adaptRecord, h]

/-- Witness for the amended claim C9 theorem on a concrete record. -/
theorem adaptRecord_fills_defaults_witness :
    (adaptRecord "2020-02-02"
        ⟨JSVal.obj [("a", JSPrim.str "x")], JSVal.prim (JSPrim.str "u"),
         JSVal.prim JSPrim.undef, JSVal.prim JSPrim.null,
         [("k", JSPrim.num 1)]⟩).file_url = JSVal.prim (JSPrim.str "u") ∧
    (adaptRecord "2020-02-02"
        ⟨JSVal.obj [("a", JSPrim.str "x")], JSVal.prim (JSPrim.str "u"),
         JSVal.prim JSPrim.undef, JSVal.prim JSPrim.null,
         [("k", JSPrim.num 1)]⟩).visit_date = JSVal.prim (JSPrim.str "2020-02-02") :=
  ⟨(adaptRecord_fills_defaults "2020-02-02" _).2.2.2.2.2.1 (by decide),
   (adaptRecord_fills_defaults "2020-02-02" _).2.2.2.2.2.2.2.2.2.2.1 (by decide)⟩

/-- A patient row, as far as the lab-records route reads it. -/
structure Patient where
  uhid : String
  name : String
deriving DecidableEq, Repr

/-- A medical record as the lab-records route creates it. -/
structure MedicalRecord where
  record_id : String
  patient_id : JSPrim
  document_type : String
  extracted_data : List (String × JSPrim)
  confidence_score : ℚ
  status : String
  processed_at : String
  file_url : JSPrim
deriving DecidableEq, Repr

/-- The persistent store the lab-records route reads and writes. -/
structure LabStore where
  patients : List Patient
  records : List MedicalRecord
deriving DecidableEq, Repr

/-- `POST /api/lab-records` (appended server code in PatientSummaryCard.jsx,
lines 382–420): rejects a body with a missing `uhid`, `file_url` or `reviews`
(400), rejects an unknown patient (404), and otherwise appends a record with
`confidence_score` 1.0 and status `AUTO_APPROVED` (201).  The random
`record_id` and the timestamp are parameters. -/
def postLabRecord (rid now : String) (st : LabStore) (uhid fileUrl reviews : JSPrim) :
    ℕ × LabStore :=
  if truthyP uhid = false ∨ truthyP fileUrl = false ∨ truthyP reviews = false then
    (400, st)
  else
    match st.patients.find? (fun p => JSPrim.str p.uhid == uhid) with
    | none => (404, st)
    | some _ =>
      (201, { st with records := st.records ++
        [{ record_id := rid, patient_id := uhid, document_type := "LAB_REPORT",
           extracted_data := [("reviews", reviews)], confidence_score := 1,
           status := "AUTO_APPROVED", processed_at := now, file_url := fileUrl }] })

/-- Claim C10: a record created through the manual lab-record upload is stored
with confidence score exactly 1.0 and status AUTO_APPROVED (the scoring
pipeline is bypassed: the values are constants of the route), and is created
only when a patient with the given UHID exists; a missing required field
leaves the store unchanged with a 400 response, and an unknown UHID leaves it
unchanged with a 404 response. -/
theorem postLabRecord_spec (rid now : String) (st : LabStore) (u f rv : JSPrim) :
    ((truthyP u = false ∨ truthyP f = false ∨ truthyP rv = false) →
      postLabRecord rid now st u f rv = (400, st)) ∧
    (truthyP u = true → truthyP f = true → truthyP rv = true →
      st.patients.find? (fun q => JSPrim.str q.uhid == u) = none →
      postLabRecord rid now st u f rv = (404, st)) ∧
    (∀ p, truthyP u = true → truthyP f = true → truthyP rv = true →
      st.patients.find? (fun q => JSPrim.str q.uhid == u) = some p →
      ∃ newRec, postLabRecord rid now st u f rv
          = (201, { st with records := st.records ++ [newRec] }) ∧
        newRec.confidence_score = 1 ∧ newRec.status = "AUTO_APPROVED" ∧
        newRec.document_type = "LAB_REPORT") := by
  refine ⟨?_, ?_, ?_⟩
  · intro h
    simp [postLabRecord, h]
  · intro hu hf hr hfind
    have hcond : ¬ (truthyP u = false ∨ truthyP f = false ∨ truthyP rv = false) := by
      simp [hu, hf, hr]
    simp [postLabRecord, hcond, hfind]
  · intro p hu hf hr hfind
    refine ⟨⟨rid, u, "LAB_REPORT", [("reviews", rv)], 1, "AUTO_APPROVED", now, f⟩,
      ?_, rfl, rfl, rfl⟩
    have hcond : ¬ (truthyP u = false ∨ truthyP f = false ∨ truthyP rv = false) := by
      simp [hu, hf, hr]
    simp [postLabRecord, hcond, hfind]

/-- Witness for the claim C10 theorem at a concrete store and body. -/
theorem postLabRecord_spec_witness :
    postLabRecord "rec_1" "t0" ⟨[⟨"UH123456", "A"⟩], []⟩
        (JSPrim.str "UHID-999") (JSPrim.str "f") (JSPrim.str "r")
      = (404, ⟨[⟨"UH123456", "A"⟩], []⟩) :=
  (postLabRecord_spec "rec_1" "t0" ⟨[⟨"UH123456", "A"⟩], []⟩
      (JSPrim.str "UHID-999") (JSPrim.str "f") (JSPrim.str "r")).2.1
    (by decide) (by decide) (by decide) (by decide)

/-- Numeric value of a list of decimal digit characters. -/
def digitsVal (l : List Char) : ℕ :=
  l.foldl (fun acc c => acc * 10 + (c.toNat - 48)) 0

/-- JS `parseInt` on a character list, as the demo summariser feeds it:
leading whitespace, an optional sign and a decimal digit prefix;
`none` is NaN. -/
def jsParseIntChars (l : List Char) : Option Int :=
  let l1 := l.dropWhile Char.isWhitespace
  let sl : Int × List Char :=
    match l1 with
    | c :: rest => if c = '-' then (-1, rest) else if c = '+' then (1, rest) else (1, l1)
    | [] => (1, [])
  let digits := sl.2.takeWhile Char.isDigit
  if digits = [] then none
  else some (sl.1 * (digitsVal digits : Int))

/-- JS `parseFloat` on a character list: leading whitespace, an optional
sign, a decimal digit prefix and an optional fraction; `none` is NaN. -/
def jsParseFloatChars (l : List Char) : Option ℚ :=
  let l1 := l.dropWhile Char.isWhitespace
  let sl : ℚ × List Char :=
    match l1 with
    | c :: rest => if c = '-' then (-1, rest) else if c = '+' then (1, rest) else (1, l1)
    | [] => (1, [])
  let intPart := sl.2.takeWhile Char.isDigit
  let l3 := sl.2.drop intPart.length
  let fracPart : List Char :=
    match l3 with
    | '.' :: rest => rest.takeWhile Char.isDigit
    | _ => []
  if intPart = [] ∧ fracPart = [] then none
  else some (sl.1 * ((digitsVal intPart : ℚ) + (digitsVal fracPart : ℚ) / (10 : ℚ) ^ fracPart.length))

/-- JS `parseInt` on a primitive: strings parse, numbers truncate toward
zero, everything else is NaN. -/
def jsParseIntP (v : JSPrim) : Option Int :=
  match v with
  | JSPrim.str s => jsParseIntChars s.data
  | JSPrim.num q => some (if 0 ≤ q then ⌊q⌋ else ⌈q⌉)
  | _ => none

/-- JS `parseFloat` on a primitive. -/
def jsParseFloatP (v : JSPrim) : Option ℚ :=
  match v with
  | JSPrim.str s => jsParseFloatChars s.data
  | JSPrim.num q => some q
  | _ => none

/-- `some v > bound`, with NaN (`none`) never greater. -/
def optIntGt (o : Option Int) (bound : Int) : Bool :=
  match o with
  | some v => bound < v
  | none => false

/-- `some v > bound`, with NaN (`none`) never greater. -/
def optRatGt (o : Option ℚ) (bound : ℚ) : Bool :=
  match o with
  | some v => bound < v
  | none => false

/-- JS `.toLowerCase()`: a TypeError unless the value is a string. -/
def jsToLower (v : JSPrim) : Except String String :=
  match v with
  | JSPrim.str s => Except.ok s.toLower
  | _ => Except.error "TypeError"

/-- The `extracted_data` fields the demo summariser inspects; `undef` is an
absent field. -/
structure DemoData where
  blood_sugar_fasting : JSPrim
  hba1c : JSPrim
  diagnosis : JSPrim
  medication : JSPrim
  dosage : JSPrim
  treatment_plan : JSPrim
deriving DecidableEq, Repr

/-- The all-absent object `{}` supplied by `record.extracted_data || {}`. -/
def emptyDemoData : DemoData :=
  ⟨JSPrim.undef, JSPrim.undef, JSPrim.undef, JSPrim.undef, JSPrim.undef, JSPrim.undef⟩

/-- A record as consumed by the demo summariser. -/
structure DemoRecord where
  extracted_data : Option DemoData
deriving DecidableEq, Repr

/-- The `extracted_data` of a record, defaulted as the source defaults it. -/
def dataOf (r : DemoRecord) : DemoData :=
  r.extracted_data.getD emptyDemoData

/-- A medication entry as the demo summariser builds it. -/
structure Med where
  name : String
  dosage : JSPrim
  frequency : String
  purpose : JSPrim
deriving DecidableEq, Repr

/-- The structured summary (the shape of the Gemini prompt's output format
and of the demo fallback). -/
structure DemoSummary where
  alerts : List String
  diagnoses : List JSPrim
  medications : List Med
  clinicalInsight : String
deriving DecidableEq, Repr

/-- Accumulator of the demo summariser's `forEach` loop. -/
structure DemoAcc where
  alerts : List String
  diagnoses : List JSPrim
  medications : List Med
deriving DecidableEq, Repr

/-- The infection-alert test: `data.diagnosis && data.diagnosis.toLowerCase()
.includes("infection")`; throws when a truthy non-string is lowercased. -/
def diagAlertCheck (v : JSPrim) : Except String Bool :=
  if truthyP v then
    match jsToLower v with
    | Except.ok low => Except.ok (containsSeq "infection".data low.data)
    | Except.error e => Except.error e
  else Except.ok false

/-- The medication-name list: `data.medication.split(', ')` when truthy (a
TypeError on a truthy non-string), the empty loop otherwise. -/
def medNamesOf (v : JSPrim) : Except String (List String) :=
  if truthyP v then
    match v with
    | JSPrim.str s =>
      Except.ok ((splitOnList ", ".data s.data).map (fun l => String.mk l))
    | _ => Except.error "TypeError"
  else Except.ok []

/-- The Metformin test on the treatment plan: `data.treatment_plan &&
data.treatment_plan.includes("Metformin")`; a TypeError on a truthy
non-string. -/
def tpMetforminCheck (v : JSPrim) : Except String Bool :=
  if truthyP v then
    match v with
    | JSPrim.str s => Except.ok (containsSeq "Metformin".data s.data)
    | _ => Except.error "TypeError"
  else Except.ok false

/-- The inner `medNames.forEach` of the demo summariser: push each new name
with the record's dosage (or the default) and the diagnosis (or the default)
as purpose. -/
def addMeds (diag dose : JSPrim) (names : List String) (meds : List Med) : List Med :=
  match names with
  | [] => meds
  | n :: rest =>
    let meds' :=
      if (meds.find? (fun m => m.name == n)).isSome then meds
      else meds ++ [⟨n, if truthyP dose then dose else JSPrim.str "As directed", "Daily",
                     if truthyP diag then diag else JSPrim.str "Medical condition"⟩]
    addMeds diag dose rest meds'

/-- One iteration of the demo summariser's `records.forEach` body
(aiSummaryService, lines 78–122), in an exception monad: the `TypeError`s the
JS code can raise surface as `Except.error`. -/
def demoStep (acc : DemoAcc) (r : DemoRecord) : Except String DemoAcc :=
  let alerts1 :=
    if truthyP (dataOf r).blood_sugar_fasting
        && optIntGt (jsParseIntP (dataOf r).blood_sugar_fasting) 110 then
      acc.alerts ++ ["Elevated Fasting Blood Sugar"]
    else acc.alerts
  let alerts2 :=
    if truthyP (dataOf r).hba1c && optRatGt (jsParseFloatP (dataOf r).hba1c) 6.5 then
      alerts1 ++ ["High Hemoglobin A1c (Pre-diabetic/Diabetic)"]
    else alerts1
  match diagAlertCheck (dataOf r).diagnosis with
  | Except.error e => Except.error e
  | Except.ok infectionFlag =>
    let alerts3 :=
      if infectionFlag then alerts2 ++ ["Active Infection Management"] else alerts2
    let diagnoses1 :=
      if truthyP (dataOf r).diagnosis && !(acc.diagnoses.contains (dataOf r).diagnosis) then
        acc.diagnoses ++ [(dataOf r).diagnosis]
      else acc.diagnoses
    match medNamesOf (dataOf r).medication with
    | Except.error e => Except.error e
    | Except.ok names =>
      let meds1 := addMeds (dataOf r).diagnosis (dataOf r).dosage names acc.medications
      match tpMetforminCheck (dataOf r).treatment_plan with
      | Except.error e => Except.error e
      | Except.ok metFlag =>
        let meds2 :=
          if metFlag && (meds1.find? (fun m => m.name == "Metformin")).isNone then
            meds1 ++ [⟨"Metformin", JSPrim.str "500mg", "Twice daily",
                       JSPrim.str "Type 2 Diabetes"⟩]
          else meds1
        Except.ok ⟨alerts3, diagnoses1, meds2⟩

/-- The `records.forEach` loop, propagating a raised TypeError. -/
def demoFold (acc : DemoAcc) : List DemoRecord → Except String DemoAcc
  | [] => Except.ok acc
  | r :: rest =>
    match demoStep acc r with
    | Except.error e => Except.error e
    | Except.ok acc' => demoFold acc' rest

/-- `[...new Set(l)]`: duplicates removed, first occurrences kept in order. -/
def dedupAux (seen : List String) : List String → List String
  | [] => []
  | x :: xs => if seen.contains x then dedupAux seen xs else x :: dedupAux (x :: seen) xs

/-- Order-preserving deduplication of the alert list. -/
def dedup (l : List String) : List String := dedupAux [] l

/-- `generateDemoSummary` (aiSummaryService, lines 69–130): the rule-based
fallback summariser over the records, with the source's defaults when a
category came out empty. -/
def generateDemoSummary (records : List DemoRecord) : Except String DemoSummary :=
  match demoFold ⟨[], [], []⟩ records with
  | Except.error e => Except.error e
  | Except.ok acc =>
    Except.ok
      { alerts := if acc.alerts.length > 0 then dedup acc.alerts
                  else ["No urgent clinical alerts"],
        diagnoses := if acc.diagnoses.length > 0 then acc.diagnoses
                     else [JSPrim.str "Routine Follow-up"],
        medications := if acc.medications.length > 0 then acc.medications
                       else [⟨"Reviewing medications", JSPrim.str "N/A", "N/A",
                              JSPrim.str "N/A"⟩],
        clinicalInsight := "Patient shows signs of chronic condition management with recent acute episodes. Careful monitoring of metabolic values and adherence to current antimicrobial therapy is advised." }

/-- `generatePatientSummary` (aiSummaryService, lines 14–64): demo mode when
the API capability is unconfigured (`!genAI`); otherwise the external call
and the JSON parse are attempted, and any failure falls back to the demo
summariser via the `catch`.  The external call and `JSON.parse` are
abstracted as parameters. -/
def generatePatientSummary (cfg : Bool) (callOutcome : Except String (List Char))
    (parse : List Char → Option DemoSummary) (records : List DemoRecord) :
    Except String DemoSummary :=
  if cfg = false then generateDemoSummary records
  else
    match callOutcome with
    | Except.error _ => generateDemoSummary records
    | Except.ok text =>
      match parse (stripFenceL text) with
      | some s => Except.ok s
      | none => generateDemoSummary records

/-- Well-typedness of the fields the demo summariser calls string methods on:
whenever truthy, `diagnosis`, `medication` and `treatment_plan` are strings. -/
def WellTypedData (d : DemoData) : Prop :=
  (truthyP d.diagnosis = true → ∃ s, d.diagnosis = JSPrim.str s) ∧
  (truthyP d.medication = true → ∃ s, d.medication = JSPrim.str s) ∧
  (truthyP d.treatment_plan = true → ∃ s, d.treatment_plan = JSPrim.str s)

theorem diagAlertCheck_ok (v : JSPrim) (h : truthyP v = true → ∃ s, v = JSPrim.str s) :
    ∃ b, diagAlertCheck v = Except.ok b := by
  by_cases ht : truthyP v = true
  · obtain ⟨s, rfl⟩ := h ht
    exact ⟨containsSeq "infection".data s.toLower.data,
      by simp [diagAlertCheck, ht, jsToLower]⟩
  · exact ⟨false, by simp [diagAlertCheck, ht]⟩

theorem medNamesOf_ok (v : JSPrim) (h : truthyP v = true → ∃ s, v = JSPrim.str s) :
    ∃ ns, medNamesOf v = Except.ok ns := by
  by_cases ht : truthyP v = true
  · obtain ⟨s, rfl⟩ := h ht
    exact ⟨(splitOnList ", ".data s.data).map (fun l => String.mk l),
      by simp [medNamesOf, ht]⟩
  · exact ⟨[], by simp [medNamesOf, ht]⟩

theorem tpMetforminCheck_ok (v : JSPrim) (h : truthyP v = true → ∃ s, v = JSPrim.str s) :
    ∃ b, tpMetforminCheck v = Except.ok b := by
  by_cases ht : truthyP v = true
  · obtain ⟨s, rfl⟩ := h ht
    exact ⟨containsSeq "Metformin".data s.data, by simp [tpMetforminCheck, ht]⟩
  · exact ⟨false, by simp [tpMetforminCheck, ht]⟩

theorem demoStep_ok (acc : DemoAcc) (r : DemoRecord) (hwt : WellTypedData (dataOf r)) :
    ∃ acc', demoStep acc r = Except.ok acc' := by
  obtain ⟨b1, h1⟩ := diagAlertCheck_ok _ hwt.1
  obtain ⟨ns, h2⟩ := medNamesOf_ok _ hwt.2.1
  obtain ⟨b3, h3⟩ := tpMetforminCheck_ok _ hwt.2.2
  unfold demoStep
  rw [h1, h2, h3]
  exact ⟨_, rfl⟩

theorem demoFold_ok (records : List DemoRecord) :
    ∀ acc : DemoAcc, (∀ r ∈ records, WellTypedData (dataOf r)) →
    ∃ acc', demoFold acc records = Except.ok acc' := by
  induction records with
  | nil =>
    intro acc _
    exact ⟨acc, rfl⟩
  | cons r rest ih =>
    intro acc h
    obtain ⟨acc1, h1⟩ := demoStep_ok acc r (h r (List.mem_cons_self r rest))
    obtain ⟨acc2, h2⟩ := ih acc1 (fun x hx => h x (List.mem_cons_of_mem r hx))
    refine ⟨acc2, ?_⟩
    unfold demoFold
    rw [h1]
    exact h2

/-- Claim C6 counterexample: a record whose `diagnosis` is a (truthy) number
makes the demo summariser raise a TypeError (`data.diagnosis.toLowerCase()`
on a non-string), so the fallback extractor is not total over fields of
unexpected type. -/
theorem generateDemoSummary_typeerror_cex :
    generateDemoSummary
        [⟨some ⟨JSPrim.undef, JSPrim.undef, JSPrim.num 5, JSPrim.undef,
                JSPrim.undef, JSPrim.undef⟩⟩]
      = Except.error "TypeError" := by rfl

/-- Claim C6 (amended): the demo fallback summariser is deterministic and
total on every record list whose truthy `diagnosis`, `medication` and
`treatment_plan` fields are strings (absent or falsy fields of any type are
fine, and the empty record list is fine): it returns a summary without
raising, and identical inputs give identical outputs. -/
theorem generateDemoSummary_total (records : List DemoRecord)
    (h : ∀ r ∈ records, WellTypedData (dataOf r)) :
    (∃ out, generateDemoSummary records = Except.ok out) ∧
    generateDemoSummary records = generateDemoSummary records := by
  obtain ⟨acc, hf⟩ := demoFold_ok records ⟨[], [], []⟩ h
  constructor
  · unfold generateDemoSummary
    rw [hf]
    exact ⟨_, rfl⟩
  · rfl

/-- Witness for the amended claim C6 theorem on a concrete record list. -/
theorem generateDemoSummary_total_witness :
    ∃ out,
      generateDemoSummary
          [⟨some ⟨JSPrim.str "120", JSPrim.str "7.0", JSPrim.str "Viral Infection",
                  JSPrim.undef, JSPrim.undef, JSPrim.str "Metformin advised"⟩⟩]
        = Except.ok out :=
  (generateDemoSummary_total
      [⟨some ⟨JSPrim.str "120", JSPrim.str "7.0", JSPrim.str "Viral Infection",
              JSPrim.undef, JSPrim.undef, JSPrim.str "Metformin advised"⟩⟩]
      (by
        intro r hr
        simp only [List.mem_singleton] at hr
        subst hr
        exact ⟨fun _ => ⟨"Viral Infection", rfl⟩,
               fun hm => absurd hm (by decide),
               fun _ => ⟨"Metformin advised", rfl⟩⟩)).1

/-- Claim C3: whenever the primary capability is unconfigured, its call
errors, or its output fails to parse, `generatePatientSummary` returns
exactly the demo fallback's result — no field of the failed primary attempt
is merged in, and the primary failure is not surfaced as an error return. -/
theorem generatePatientSummary_fallback (cfg : Bool) (co : Except String (List Char))
    (parse : List Char → Option DemoSummary) (records : List DemoRecord)
    (h : cfg = false ∨ (∃ e, co = Except.error e) ∨
         (∃ t, co = Except.ok t ∧ parse (stripFenceL t) = none)) :
    generatePatientSummary cfg co parse records = generateDemoSummary records := by
  rcases h with hc | ⟨e, he⟩ | ⟨t, ht, hp⟩
  · simp [generatePatientSummary, hc]
  · subst he
    by_cases hcfg : cfg = false
    · simp [generatePatientSummary, hcfg]
    · simp [generatePatientSummary, hcfg]
  · subst ht
    by_cases hcfg : cfg = false
    · simp [generatePatientSummary, hcfg]
    · simp [generatePatientSummary, hcfg, hp]

/-- Witness for the claim C3 theorem at a concrete failed parse. -/
theorem generatePatientSummary_fallback_witness :
    generatePatientSummary true (Except.ok "not json".data) (fun _ => none) []
      = generateDemoSummary [] :=
  generatePatientSummary_fallback true (Except.ok "not json".data) (fun _ => none) []
    (Or.inr (Or.inr ⟨"not json".data, rfl, rfl⟩))
